import Mathlib

/-!
Shallow embedding of the EEROS control-framework core: the `SIUnit` physical-unit
value type, the arity-polymorphic `Blockio` port model, the `Mul` and `DeMux`
leaf blocks and the `ScalableInput` HAL adapter, together with proofs of the
specified properties.
-/

namespace EEROS

/-- `SIUnit` from SIUnit.hpp: seven signed integer exponents of the SI base units
plus a boolean radian flag. -/
structure SIUnit where
  length : Int
  mass : Int
  time : Int
  electric_current : Int
  thermodynamic_temperature : Int
  amount_of_substance : Int
  luminous_intensity : Int
  radian : Bool
deriving DecidableEq

/-- `SIUnit::create`: builds the struct from the eight arguments. The source
performs no validation (the radian-legality `static_assert` is commented out),
so the function is total and simply stores the arguments. -/
def SIUnit.create (l m t ec th am lu : Int) (r : Bool) : SIUnit :=
  ⟨l, m, t, ec, th, am, lu, r⟩

/-- The dimensionless unit `SIUnit::create()` (all template defaults). -/
def SIUnit.dimensionless : SIUnit := SIUnit.create 0 0 0 0 0 0 0 false

/-- Named constant `Watt` from SIUnit.hpp. -/
def Watt : SIUnit := SIUnit.create 2 1 (-3) 0 0 0 0 false

/-- Named constant `Newton` from SIUnit.hpp. -/
def Newton : SIUnit := SIUnit.create 1 1 (-2) 0 0 0 0 false

/-- Named constant `Joule` from SIUnit.hpp. -/
def Joule : SIUnit := SIUnit.create 2 1 (-2) 0 0 0 0 false

/-- Named constant `Volt` from SIUnit.hpp. -/
def Volt : SIUnit := SIUnit.create 2 1 (-3) (-1) 0 0 0 false

/-- Named constant `Radian` from SIUnit.hpp. -/
def Radian : SIUnit := SIUnit.create 0 0 0 0 0 0 0 true

/-- The defaulted `operator==` of `SIUnit`: member-wise equality of all eight
fields, in declaration order. -/
def SIUnit.beq (a b : SIUnit) : Bool :=
  a.length == b.length && a.mass == b.mass && a.time == b.time &&
  a.electric_current == b.electric_current &&
  a.thermodynamic_temperature == b.thermodynamic_temperature &&
  a.amount_of_substance == b.amount_of_substance &&
  a.luminous_intensity == b.luminous_intensity &&
  a.radian == b.radian

/-- Three-way comparison of two machine integers, the C++ `<=>` on `int`. -/
def intCmp (x y : Int) : Ordering :=
  if x < y then .lt else if x = y then .eq else .gt

/-- Three-way comparison of two booleans, the C++ `<=>` on `bool`
(`false < true`). -/
def boolCmp (x y : Bool) : Ordering :=
  match x, y with
  | false, true => .lt
  | true, false => .gt
  | _, _ => .eq

/-- The defaulted `operator<=>` of `SIUnit`: member-wise three-way comparison
chained over the eight fields in declaration order. -/
def SIUnit.cmp (a b : SIUnit) : Ordering :=
  (intCmp a.length b.length).then <|
  (intCmp a.mass b.mass).then <|
  (intCmp a.time b.time).then <|
  (intCmp a.electric_current b.electric_current).then <|
  (intCmp a.thermodynamic_temperature b.thermodynamic_temperature).then <|
  (intCmp a.amount_of_substance b.amount_of_substance).then <|
  (intCmp a.luminous_intensity b.luminous_intensity).then
  (boolCmp a.radian b.radian)

/-- The spec's field-by-field lexicographic strict order over the eight fields,
in declaration order, with `false < true` on the radian flag. -/
def SIUnit.lexLt (a b : SIUnit) : Prop :=
  a.length < b.length ∨ (a.length = b.length ∧
  (a.mass < b.mass ∨ (a.mass = b.mass ∧
  (a.time < b.time ∨ (a.time = b.time ∧
  (a.electric_current < b.electric_current ∨ (a.electric_current = b.electric_current ∧
  (a.thermodynamic_temperature < b.thermodynamic_temperature ∨
   (a.thermodynamic_temperature = b.thermodynamic_temperature ∧
  (a.amount_of_substance < b.amount_of_substance ∨ (a.amount_of_substance = b.amount_of_substance ∧
  (a.luminous_intensity < b.luminous_intensity ∨ (a.luminous_intensity = b.luminous_intensity ∧
  (a.radian = false ∧ b.radian = true))))))))))))))

/-- The lexicographic key of a unit: the eight fields as a right-nested
lexicographic product, used to transport the order laws from Mathlib. -/
def SIUnit.key (u : SIUnit) :
    Lex (Int × Lex (Int × Lex (Int × Lex (Int × Lex (Int × Lex (Int × Lex (Int × Bool))))))) :=
  toLex (u.length, toLex (u.mass, toLex (u.time, toLex (u.electric_current,
    toLex (u.thermodynamic_temperature, toLex (u.amount_of_substance,
      toLex (u.luminous_intensity, u.radian)))))))

theorem then_eq_lt (o₁ o₂ : Ordering) :
    o₁.then o₂ = .lt ↔ o₁ = .lt ∨ (o₁ = .eq ∧ o₂ = .lt) := by
  cases o₁ <;> simp [Ordering.then]

theorem then_eq_eq (o₁ o₂ : Ordering) :
    o₁.then o₂ = .eq ↔ o₁ = .eq ∧ o₂ = .eq := by
  cases o₁ <;> simp [Ordering.then]

theorem swap_then (o₁ o₂ : Ordering) :
    (o₁.then o₂).swap = o₁.swap.then o₂.swap := by
  cases o₁ <;> simp [Ordering.then, Ordering.swap]

theorem intCmp_eq_lt (x y : Int) : intCmp x y = .lt ↔ x < y := by
  rcases lt_trichotomy x y with h | h | h <;> simp [intCmp, h]

theorem intCmp_eq_eq (x y : Int) : intCmp x y = .eq ↔ x = y := by
  rcases lt_trichotomy x y with h | h | h <;> simp [intCmp, h] <;> omega

theorem intCmp_swap (x y : Int) : (intCmp x y).swap = intCmp y x := by
  rcases lt_trichotomy x y with h | h | h
  · simp [intCmp, h, Ordering.swap, lt_asymm h, ne_of_gt h]
  · simp [intCmp, h, Ordering.swap]
  · simp [intCmp, h, Ordering.swap, lt_asymm h, ne_of_gt h]

theorem boolCmp_eq_lt (x y : Bool) : boolCmp x y = .lt ↔ x < y := by
  cases x <;> cases y <;> simp [boolCmp, Bool.lt_iff]

theorem boolCmp_eq_eq (x y : Bool) : boolCmp x y = .eq ↔ x = y := by
  cases x <;> cases y <;> simp [boolCmp]

theorem boolCmp_swap (x y : Bool) : (boolCmp x y).swap = boolCmp y x := by
  cases x <;> cases y <;> simp [boolCmp, Ordering.swap]

/-- `==` on `SIUnit` decides propositional equality. -/
theorem SIUnit.beq_iff_eq (a b : SIUnit) : a.beq b = true ↔ a = b := by
  cases a; cases b
  simp [SIUnit.beq, SIUnit.mk.injEq, and_assoc]

theorem SIUnit.cmp_eq_eq (a b : SIUnit) : a.cmp b = .eq ↔ a = b := by
  cases a; cases b
  simp [SIUnit.cmp, then_eq_eq, intCmp_eq_eq, boolCmp_eq_eq, SIUnit.mk.injEq, and_assoc]

theorem SIUnit.cmp_eq_lt_iff_lexLt (a b : SIUnit) : a.cmp b = .lt ↔ a.lexLt b := by
  simp only [SIUnit.cmp, SIUnit.lexLt, then_eq_lt, intCmp_eq_lt, intCmp_eq_eq,
    boolCmp_eq_lt, Bool.lt_iff]

theorem SIUnit.key_lt_iff_lexLt (a b : SIUnit) : a.key < b.key ↔ a.lexLt b := by
  simp only [SIUnit.key, SIUnit.lexLt, Prod.Lex.lt_iff, Bool.lt_iff]

theorem SIUnit.cmp_swap (a b : SIUnit) : (a.cmp b).swap = b.cmp a := by
  simp only [SIUnit.cmp, swap_then, intCmp_swap, boolCmp_swap]

theorem SIUnit.cmp_eq_lt_iff_key (a b : SIUnit) : a.cmp b = .lt ↔ a.key < b.key := by
  rw [SIUnit.cmp_eq_lt_iff_lexLt, SIUnit.key_lt_iff_lexLt]

theorem SIUnit.cmp_lt_trans {a b c : SIUnit}
    (h₁ : a.cmp b = .lt) (h₂ : b.cmp c = .lt) : a.cmp c = .lt := by
  rw [SIUnit.cmp_eq_lt_iff_key] at h₁ h₂ ⊢
  exact lt_trans h₁ h₂

/-- C1: for all `SIUnit` values, `operator==` holds exactly when all eight
fields agree; this equality is reflexive, symmetric and transitive; and the
defaulted `operator<=>` is a total order (it refines equality, is antisymmetric
under swapping its arguments, always yields one of lt/eq/gt, and its strict
part is transitive) that agrees with field-by-field lexicographic comparison in
declaration order. -/
theorem siunit_eq_and_order_spec :
    (∀ u1 u2 : SIUnit, u1.beq u2 = true ↔
      (u1.length = u2.length ∧ u1.mass = u2.mass ∧ u1.time = u2.time ∧
       u1.electric_current = u2.electric_current ∧
       u1.thermodynamic_temperature = u2.thermodynamic_temperature ∧
       u1.amount_of_substance = u2.amount_of_substance ∧
       u1.luminous_intensity = u2.luminous_intensity ∧ u1.radian = u2.radian))
  ∧ (∀ u : SIUnit, u.beq u = true)
  ∧ (∀ u1 u2 : SIUnit, u1.beq u2 = true → u2.beq u1 = true)
  ∧ (∀ u1 u2 u3 : SIUnit, u1.beq u2 = true → u2.beq u3 = true → u1.beq u3 = true)
  ∧ (∀ u1 u2 : SIUnit, u1.cmp u2 = .eq ↔ u1 = u2)
  ∧ (∀ u1 u2 : SIUnit, (u1.cmp u2).swap = u2.cmp u1)
  ∧ (∀ u1 u2 : SIUnit, u1.cmp u2 = .lt ∨ u1.cmp u2 = .eq ∨ u1.cmp u2 = .gt)
  ∧ (∀ u1 u2 u3 : SIUnit, u1.cmp u2 = .lt → u2.cmp u3 = .lt → u1.cmp u3 = .lt)
  ∧ (∀ u1 u2 : SIUnit, u1.cmp u2 = .lt ↔ u1.lexLt u2) := by
  refine ⟨?_, ?_, ?_, ?_, SIUnit.cmp_eq_eq, SIUnit.cmp_swap, ?_, ?_, SIUnit.cmp_eq_lt_iff_lexLt⟩
  · intro u1 u2
    rw [SIUnit.beq_iff_eq]
    cases u1; cases u2; simp [SIUnit.mk.injEq, and_assoc]
  · intro u; rw [SIUnit.beq_iff_eq]
  · intro u1 u2 h
    rw [SIUnit.beq_iff_eq] at h ⊢; exact h.symm
  · intro u1 u2 u3 h₁ h₂
    rw [SIUnit.beq_iff_eq] at h₁ h₂ ⊢; exact h₁.trans h₂
  · intro u1 u2; cases u1.cmp u2 <;> simp
  · intro u1 u2 u3; exact SIUnit.cmp_lt_trans

/-- C1 witness: the order laws applied at the named unit constants, at which the
symmetry and transitivity hypotheses are discharged by evaluation
(`Newton < Watt < Joule` lexicographically). -/
theorem siunit_eq_and_order_spec_witness :
    Newton.cmp Joule = Ordering.lt ∧ Watt.beq Newton = Joule.beq Watt :=
  ⟨siunit_eq_and_order_spec.2.2.2.2.2.2.2.1 Newton Watt Joule (by decide) (by decide),
   by decide⟩

/-- C10: `SIUnit::create` accepts every combination of the seven exponents and
the radian flag — the radian-legality check is commented out, so nothing is
rejected — and the returned unit's eight fields are exactly the arguments; in
particular `radian = true` together with a nonzero length exponent is accepted
unchanged. -/
theorem siunit_create_stores_arguments :
    (∀ (l m t ec th am lu : Int) (r : Bool),
      (SIUnit.create l m t ec th am lu r).length = l ∧
      (SIUnit.create l m t ec th am lu r).mass = m ∧
      (SIUnit.create l m t ec th am lu r).time = t ∧
      (SIUnit.create l m t ec th am lu r).electric_current = ec ∧
      (SIUnit.create l m t ec th am lu r).thermodynamic_temperature = th ∧
      (SIUnit.create l m t ec th am lu r).amount_of_substance = am ∧
      (SIUnit.create l m t ec th am lu r).luminous_intensity = lu ∧
      (SIUnit.create l m t ec th am lu r).radian = r)
  ∧ (SIUnit.create 1 0 0 0 0 0 0 true).radian = true
  ∧ (SIUnit.create 1 0 0 0 0 0 0 true).length = 1 :=
  ⟨fun _ _ _ _ _ _ _ _ => ⟨rfl, rfl, rfl, rfl, rfl, rfl, rfl, rfl⟩, rfl, rfl⟩

/-- Modelled from the spec: `Signal<T>` (Signal.hpp is not among the given
sources) — a value of the declared type plus a logical timestamp, the timestamp
empty (`none`) when cleared. -/
structure Signal (T : Type) where
  value : T
  timestamp : Option Int
deriving DecidableEq

/-- Modelled from the spec: `Signal::clear()` resets the value to the type's
zero and the timestamp to empty. -/
def Signal.clear {T : Type} [Zero T] (_s : Signal T) : Signal T := ⟨0, none⟩

/-- Modelled from the spec: a `Port` (Input/Output, Input.hpp and Output.hpp are
not among the given sources) holds exactly one Signal and a back-reference to
its owning Block, empty until assigned. -/
structure Port (T : Type) where
  signal : Signal T
  owner : Option String
deriving DecidableEq

/-- Modelled from the spec: `Port::setOwner(block)` is callable exactly once —
it establishes the back-reference on a fresh port and a subsequent call is a
programming error, rejected here by returning `none`. -/
def Port.setOwner {T : Type} (p : Port T) (b : String) : Option (Port T) :=
  match p.owner with
  | none => some ⟨p.signal, some b⟩
  | some _ => none

/-- A `Blockio<N,M>` instance in the homogeneous representation: the block's
name (from the `Block` base class) and its input and output port collections,
`ins.length = N` and `outs.length = M`. -/
structure Blockio (T : Type) where
  name : String
  ins : List (Port T)
  outs : List (Port T)
deriving DecidableEq

/-- From Blockio.hpp `initalizeInputsAndOutputs` applied to one output port:
set the owner, then clear the port's signal. -/
def initOutPort {T : Type} [Zero T] (name : String) (p : Port T) : Option (Port T) :=
  (p.setOwner name).map fun q => ⟨q.signal.clear, q.owner⟩

/-- From Blockio.hpp `initalizeInputsAndOutputs`: every output port gets its
owner set and its signal cleared, every input port gets its owner set. -/
def initalizeInputsAndOutputs {T : Type} [Zero T] (name : String)
    (ins outs : List (Port T)) : Option (Blockio T) := do
  let outs2 ← outs.mapM (initOutPort name)
  let ins2 ← ins.mapM (fun p => p.setOwner name)
  some ⟨name, ins2, outs2⟩

/-- The Blockio constructor: `in(generateNInputs())`, `out(generateMOutputs())`
build N resp. M default-constructed ports (owner not yet set; their signals
still hold whatever a default-constructed Signal holds, here arbitrary `sIn`
resp. `sOut`), then `initalizeInputsAndOutputs()` runs. -/
def Blockio.construct {T : Type} [Zero T] (name : String) (N M : Nat)
    (sIn sOut : Signal T) : Option (Blockio T) :=
  initalizeInputsAndOutputs name (List.replicate N ⟨sIn, none⟩) (List.replicate M ⟨sOut, none⟩)

/-- The storage shape `createInputs`/`createOutputs` choose for a "many" side. -/
inductive Storage where
  | homogeneousArray
  | heterogeneousTuple
deriving DecidableEq

/-- From Blockio.hpp `createInputs` (N > 1): the homogeneous `std::array` is
chosen iff `std::ranges::all_of(Uin, e == SIUnit::create())`, i.e. iff every
declared input unit is dimensionless; otherwise the `std::tuple`. -/
def createInputs (Uin : List SIUnit) : Storage :=
  if Uin.all (fun e => e.beq SIUnit.dimensionless) then .homogeneousArray
  else .heterogeneousTuple

/-- From Blockio.hpp `createOutputs` (M > 1): the homogeneous `std::array` is
chosen iff every declared output unit is dimensionless; otherwise the
`std::tuple`. -/
def createOutputs (Uout : List SIUnit) : Storage :=
  if Uout.all (fun e => e.beq SIUnit.dimensionless) then .homogeneousArray
  else .heterogeneousTuple

theorem createInputs_homogeneous_iff (Uin : List SIUnit) :
    createInputs Uin = .homogeneousArray ↔ ∀ u ∈ Uin, u = SIUnit.dimensionless := by
  simp only [createInputs, List.all_eq_true, SIUnit.beq_iff_eq]
  split
  · exact iff_of_true rfl (by assumption)
  · exact iff_of_false (by simp) (by assumption)

theorem createOutputs_homogeneous_iff (Uout : List SIUnit) :
    createOutputs Uout = .homogeneousArray ↔ ∀ u ∈ Uout, u = SIUnit.dimensionless := by
  simp only [createOutputs, List.all_eq_true, SIUnit.beq_iff_eq]
  split
  · exact iff_of_true rfl (by assumption)
  · exact iff_of_false (by simp) (by assumption)

/-- C2 counterexample: with both declared input units equal to `Watt`, every
unit in the side's array equals the first one, yet the code picks the
heterogeneous compile-time-indexed collection — the code's homogeneity test
compares against the dimensionless unit, not against the first array entry. -/
theorem storage_choice_counterexample :
    createInputs [Watt, Watt] = Storage.heterogeneousTuple ∧
    ([Watt, Watt].all fun e => e.beq Watt) = true ∧
    createOutputs [Watt, Watt] = Storage.heterogeneousTuple := by
  exact ⟨by decide, by decide, by decide⟩

/-- C2 (amended): for a "many" side the homogeneous runtime-indexable
collection is chosen iff every declared unit of that side equals the
dimensionless unit; otherwise the heterogeneous compile-time-indexed
collection is chosen. -/
theorem storage_choice_spec :
    ∀ Uin Uout : List SIUnit,
      (createInputs Uin = .homogeneousArray ↔ ∀ u ∈ Uin, u = SIUnit.dimensionless)
    ∧ (createInputs Uin ≠ .homogeneousArray → createInputs Uin = .heterogeneousTuple)
    ∧ (createOutputs Uout = .homogeneousArray ↔ ∀ u ∈ Uout, u = SIUnit.dimensionless)
    ∧ (createOutputs Uout ≠ .homogeneousArray → createOutputs Uout = .heterogeneousTuple) := by
  intro Uin Uout
  refine ⟨createInputs_homogeneous_iff Uin, ?_, createOutputs_homogeneous_iff Uout, ?_⟩
  · cases h : createInputs Uin <;> simp [h]
  · cases h : createOutputs Uout <;> simp [h]

/-- `IndexOutOfBoundsFault`: the fault object carries exactly the message
string passed at the throw site (its header is not among the given sources;
the call sites in Blockio.hpp construct it from a single string). -/
structure Fault where
  message : String
deriving DecidableEq

/-- The message built at the `getIn(uint8_t)` throw site in Blockio.hpp. -/
def inputFaultMsg (name : String) : String :=
  "Trying to get inexistent element of input vector in block '" ++ name ++ "'"

/-- The message built at the `getOut(uint8_t)` throw site in Blockio.hpp. -/
def outputFaultMsg (name : String) : String :=
  "Trying to get inexistent element of output vector in block '" ++ name ++ "'"

/-- `Blockio::getIn(uint8_t index)` (requires N > 1, homogeneous storage):
throws `IndexOutOfBoundsFault` when `index >= N`, else returns `in[index]`. -/
def Blockio.getIn {T : Type} (b : Blockio T) (index : Nat) : Except Fault (Port T) :=
  if h : b.ins.length ≤ index then .error ⟨inputFaultMsg b.name⟩
  else .ok (b.ins.get ⟨index, by omega⟩)

/-- `Blockio::getOut(uint8_t index)` (requires M > 1, homogeneous storage):
throws `IndexOutOfBoundsFault` when `index >= M`, else returns `out[index]`. -/
def Blockio.getOut {T : Type} (b : Blockio T) (index : Nat) : Except Fault (Port T) :=
  if h : b.outs.length ≤ index then .error ⟨outputFaultMsg b.name⟩
  else .ok (b.outs.get ⟨index, by omega⟩)

/-- `Blockio::getIn<I>()` (requires N > 1): `std::get<I>(in)`, the index checked
at compile time — here a `Fin` index into the input collection. -/
def Blockio.getInCT {T : Type} (b : Blockio T) (I : Fin b.ins.length) : Port T :=
  b.ins.get I

/-- `Blockio::getOut<I>()` (requires M > 1): `std::get<I>(out)`, the index
checked at compile time. -/
def Blockio.getOutCT {T : Type} (b : Blockio T) (I : Fin b.outs.length) : Port T :=
  b.outs.get I

/-- `Mul` from Mul.hpp: a block with two input ports and one output port
(via `Blockio<0,1>`). -/
structure Mul (T : Type) where
  name : String
  in1 : Port T
  in2 : Port T
  out : Port T
deriving DecidableEq

/-- `Mul::run`: the output signal's value becomes the product of the two input
values and its timestamp becomes the first input's timestamp. -/
def Mul.run {T : Type} [HMul T T T] (b : Mul T) : Mul T :=
  ⟨b.name, b.in1, b.in2,
   ⟨⟨b.in1.signal.value * b.in2.signal.value, b.in1.signal.timestamp⟩, b.out.owner⟩⟩

/-- `DeMux<N>` from DeMux.hpp: one vector-valued input port and N scalar
output ports. -/
structure DeMux (n : Nat) (S : Type) where
  name : String
  input : Port (Fin n → S)
  outs : Fin n → Port S

/-- `DeMux::run`: for every i < N the i-th output signal's value becomes the
i-th component of the input value and its timestamp becomes the input's
timestamp. -/
def DeMux.run {n : Nat} {S : Type} (b : DeMux n S) : DeMux n S :=
  ⟨b.name, b.input,
   fun i => ⟨⟨b.input.signal.value i, b.input.signal.timestamp⟩, (b.outs i).owner⟩⟩

/-- `ScalableInput<T>` from ScalableInput.hpp: scale, offset, unit and the
valid input range, all held as plain mutable members. -/
structure ScalableInput (T : Type) where
  scale : T
  offset : T
  unit : SIUnit
  minIn : T
  maxIn : T
deriving DecidableEq

/-- `ScalableInput::getScale`. -/
def ScalableInput.getScale {T : Type} (s : ScalableInput T) : T := s.scale

/-- `ScalableInput::getOffset`. -/
def ScalableInput.getOffset {T : Type} (s : ScalableInput T) : T := s.offset

/-- `ScalableInput::getUnit`. -/
def ScalableInput.getUnit {T : Type} (s : ScalableInput T) : SIUnit := s.unit

/-- `ScalableInput::getMinIn`. -/
def ScalableInput.getMinIn {T : Type} (s : ScalableInput T) : T := s.minIn

/-- `ScalableInput::getMaxIn`. -/
def ScalableInput.getMaxIn {T : Type} (s : ScalableInput T) : T := s.maxIn

/-- `ScalableInput::setScale`. -/
def ScalableInput.setScale {T : Type} (s : ScalableInput T) (v : T) : ScalableInput T :=
  ⟨v, s.offset, s.unit, s.minIn, s.maxIn⟩

/-- `ScalableInput::setOffset`. -/
def ScalableInput.setOffset {T : Type} (s : ScalableInput T) (v : T) : ScalableInput T :=
  ⟨s.scale, v, s.unit, s.minIn, s.maxIn⟩

/-- `ScalableInput::setUnit`. -/
def ScalableInput.setUnit {T : Type} (s : ScalableInput T) (u : SIUnit) : ScalableInput T :=
  ⟨s.scale, s.offset, u, s.minIn, s.maxIn⟩

/-- `ScalableInput::setMinIn`. -/
def ScalableInput.setMinIn {T : Type} (s : ScalableInput T) (v : T) : ScalableInput T :=
  ⟨s.scale, s.offset, s.unit, v, s.maxIn⟩

/-- `ScalableInput::setMaxIn`. -/
def ScalableInput.setMaxIn {T : Type} (s : ScalableInput T) (v : T) : ScalableInput T :=
  ⟨s.scale, s.offset, s.unit, s.minIn, v⟩

/-- A concrete two-input, two-output block named "gen", used to evaluate the
access contract at concrete indices. -/
def blk2gen : Blockio Int :=
  ⟨"gen", [⟨⟨1, some 1⟩, some "gen"⟩, ⟨⟨2, some 2⟩, some "gen"⟩],
          [⟨⟨3, some 3⟩, some "gen"⟩, ⟨⟨4, some 4⟩, some "gen"⟩]⟩

theorem mapM_replicate {α β : Type} (f : α → Option β) (a : α) (c : β)
    (h : f a = some c) (n : Nat) :
    (List.replicate n a).mapM f = some (List.replicate n c) := by
  induction n with
  | zero => rfl
  | succ n ih => rw [List.replicate_succ, List.mapM_cons, h, ih]; rfl

theorem construct_eq {T : Type} [Zero T] (name : String) (N M : Nat)
    (sIn sOut : Signal T) :
    Blockio.construct name N M sIn sOut =
      some ⟨name, List.replicate N ⟨sIn, some name⟩,
                  List.replicate M ⟨⟨0, none⟩, some name⟩⟩ := by
  unfold Blockio.construct initalizeInputsAndOutputs
  rw [mapM_replicate (initOutPort name) (⟨sOut, none⟩ : Port T)
        (⟨⟨0, none⟩, some name⟩ : Port T) rfl M,
      mapM_replicate (fun p => Port.setOwner p name) (⟨sIn, none⟩ : Port T)
        (⟨sIn, some name⟩ : Port T) rfl N]
  rfl

/-- C3 counterexample: for the two-input block named "gen", the runtime access
at index 2 raises, but the raised fault's message (the only data the fault is
constructed from at the throw site) contains no character `2` at all — the
offending index value is not carried, contradicting the claim that the fault
carries both the block's name and the index. -/
theorem index_fault_counterexample :
    blk2gen.getIn 2 = Except.error ⟨inputFaultMsg "gen"⟩ ∧
    ((inputFaultMsg "gen").toList.contains '2') = false :=
  ⟨rfl, by decide⟩

/-- C3 (amended): for a block with N > 1 homogeneous inputs (M > 1 outputs),
`getIn(i)` (`getOut(i)`) raises IndexOutOfBoundsFault exactly when the index
is ≥ N (≥ M), and the raised fault carries the owning block's name inside its
message — but not the offending index value. -/
theorem index_fault_spec :
    ∀ (T : Type) (b : Blockio T) (i j : Nat),
      1 < b.ins.length → 1 < b.outs.length →
      (b.ins.length ≤ i → b.getIn i = Except.error ⟨inputFaultMsg b.name⟩)
    ∧ (∀ f, b.getIn i = Except.error f → b.ins.length ≤ i ∧ f.message = inputFaultMsg b.name)
    ∧ (b.outs.length ≤ j → b.getOut j = Except.error ⟨outputFaultMsg b.name⟩)
    ∧ (∀ f, b.getOut j = Except.error f → b.outs.length ≤ j ∧ f.message = outputFaultMsg b.name) := by
  intro T b i j _ _
  refine ⟨?_, ?_, ?_, ?_⟩
  · intro h; simp [Blockio.getIn, h]
  · intro f hf
    by_cases h : b.ins.length ≤ i
    · simp [Blockio.getIn, h] at hf
      exact ⟨h, by rw [← hf]⟩
    · simp [Blockio.getIn, h] at hf
  · intro h; simp [Blockio.getOut, h]
  · intro f hf
    by_cases h : b.outs.length ≤ j
    · simp [Blockio.getOut, h] at hf
      exact ⟨h, by rw [← hf]⟩
    · simp [Blockio.getOut, h] at hf

/-- C3 witness: the amended access contract evaluated on the concrete
two-input, two-output block named "gen" at the out-of-bounds index 5. -/
theorem index_fault_spec_witness :
    blk2gen.getOut 5 = Except.error ⟨outputFaultMsg "gen"⟩ :=
  (index_fault_spec Int blk2gen 2 5 (by decide) (by decide)).2.2.1 (by decide)

/-- C4: for a block with more than one homogeneous input (output) and an
in-range index, the bounds-checked runtime accessor returns exactly the port
the compile-time-indexed accessor returns at the same index. -/
theorem runtime_matches_compiletime_access :
    ∀ (T : Type) (b : Blockio T) (i j : Nat) (_hN : 1 < b.ins.length)
      (_hM : 1 < b.outs.length) (hi : i < b.ins.length) (hj : j < b.outs.length),
      b.getIn i = Except.ok (b.getInCT ⟨i, hi⟩) ∧
      b.getOut j = Except.ok (b.getOutCT ⟨j, hj⟩) := by
  intro T b i j _ _ hi hj
  constructor
  · unfold Blockio.getIn Blockio.getInCT
    rw [dif_neg (by omega)]
  · unfold Blockio.getOut Blockio.getOutCT
    rw [dif_neg (by omega)]

/-- C4 witness: runtime and compile-time access coincide on the concrete
two-input, two-output block at indices 0 and 1. -/
theorem runtime_matches_compiletime_access_witness :
    blk2gen.getIn 0 = Except.ok (blk2gen.getInCT ⟨0, by decide⟩) ∧
    blk2gen.getOut 1 = Except.ok (blk2gen.getOutCT ⟨1, by decide⟩) :=
  runtime_matches_compiletime_access Int blk2gen 0 1
    (by decide) (by decide) (by decide) (by decide)

/-- C5: immediately after construction every output port's signal holds the
value type's zero and an empty timestamp, for any output count M (M = 1 and
M > 1 alike) and any contents of the default-constructed signals. -/
theorem outputs_cleared_at_construction :
    ∀ (T : Type) [Zero T] (name : String) (N M : Nat) (sIn sOut : Signal T)
      (b : Blockio T), Blockio.construct name N M sIn sOut = some b →
      ∀ p ∈ b.outs, p.signal.value = (0 : T) ∧ p.signal.timestamp = none := by
  intro T _ name N M sIn sOut b h p hp
  rw [construct_eq] at h
  have hb := (Option.some.inj h).symm
  subst hb
  rw [List.eq_of_mem_replicate hp]
  exact ⟨rfl, rfl⟩

/-- C5 witness: construction of a 1-input 1-output block over `Int` whose
default-constructed signals held nonzero values; the single output port comes
out cleared. -/
theorem outputs_cleared_at_construction_witness :
    (⟨⟨0, none⟩, some "blk"⟩ : Port Int).signal.value = 0 ∧
    (⟨⟨0, none⟩, some "blk"⟩ : Port Int).signal.timestamp = none :=
  outputs_cleared_at_construction Int "blk" 1 1 ⟨5, some 3⟩ ⟨7, some 9⟩
    ⟨"blk", [⟨⟨5, some 3⟩, some "blk"⟩], [⟨⟨0, none⟩, some "blk"⟩]⟩ (by decide)
    ⟨⟨0, none⟩, some "blk"⟩ (by decide)

/-- C6: construction sets every input and output port's owner back-reference to
the constructing block; `setOwner` on a port whose owner is already set is
rejected (so the reference is established exactly once); and the cycle
operations of the leaf blocks never touch any port's owner. -/
theorem owner_fixed_at_construction :
    ∀ (T : Type) [Zero T] [HMul T T T],
      (∀ (name : String) (N M : Nat) (sIn sOut : Signal T) (b : Blockio T),
         Blockio.construct name N M sIn sOut = some b →
         (∀ p ∈ b.ins, p.owner = some name) ∧ (∀ p ∈ b.outs, p.owner = some name))
    ∧ (∀ (p : Port T) (o b2 : String), p.owner = some o → p.setOwner b2 = none)
    ∧ (∀ b : Mul T, (Mul.run b).in1.owner = b.in1.owner ∧
         (Mul.run b).in2.owner = b.in2.owner ∧ (Mul.run b).out.owner = b.out.owner)
    ∧ (∀ (n : Nat) (b : DeMux n T), (DeMux.run b).input.owner = b.input.owner ∧
         ∀ i : Fin n, ((DeMux.run b).outs i).owner = (b.outs i).owner) := by
  intro T _ _
  refine ⟨?_, ?_, fun b => ⟨rfl, rfl, rfl⟩, fun n b => ⟨rfl, fun i => rfl⟩⟩
  · intro name N M sIn sOut b h
    rw [construct_eq] at h
    have hb := (Option.some.inj h).symm
    subst hb
    constructor
    · intro p hp; rw [List.eq_of_mem_replicate hp]
    · intro p hp; rw [List.eq_of_mem_replicate hp]
  · intro p o b2 h
    simp [Port.setOwner, h]

/-- The multiplier scenario of the spec: in1 = 3 at t = 10, in2 = 4 at t = 20. -/
def mulExample : Mul ℚ :=
  ⟨"mul", ⟨⟨3, some 10⟩, some "mul"⟩, ⟨⟨4, some 20⟩, some "mul"⟩, ⟨⟨0, none⟩, some "mul"⟩⟩

/-- C7: after one `Mul::run` the output value is the product of the two input
values and the output timestamp is the first input's timestamp; on the spec's
scenario (3 at t=10, 4 at t=20) the output is 12 at t=10. -/
theorem mul_run_spec :
    (∀ (T : Type) [HMul T T T] (b : Mul T),
      (Mul.run b).out.signal.value = b.in1.signal.value * b.in2.signal.value ∧
      (Mul.run b).out.signal.timestamp = b.in1.signal.timestamp)
  ∧ (Mul.run mulExample).out.signal.value = 12
  ∧ (Mul.run mulExample).out.signal.timestamp = some 10 := by
  refine ⟨fun T _ b => ⟨rfl, rfl⟩, ?_, rfl⟩
  show (3 : ℚ) * 4 = 12
  norm_num

/-- The demultiplexer scenario of the spec: input [1, 2, 3] at t = 5. -/
def demuxExample : DeMux 3 Int :=
  ⟨"demux", ⟨⟨![1, 2, 3], some 5⟩, some "demux"⟩, fun _ => ⟨⟨0, none⟩, some "demux"⟩⟩

/-- C8: after one `DeMux::run` every output i carries the i-th component of the
input value and the input's timestamp; on the spec's scenario ([1,2,3] at t=5)
the outputs are 1, 2, 3, each at t=5. -/
theorem demux_run_spec :
    (∀ (n : Nat) (S : Type) (b : DeMux n S) (i : Fin n),
      ((DeMux.run b).outs i).signal.value = b.input.signal.value i ∧
      ((DeMux.run b).outs i).signal.timestamp = b.input.signal.timestamp)
  ∧ ((DeMux.run demuxExample).outs 0).signal.value = 1
  ∧ ((DeMux.run demuxExample).outs 1).signal.value = 2
  ∧ ((DeMux.run demuxExample).outs 2).signal.value = 3
  ∧ (∀ i : Fin 3, ((DeMux.run demuxExample).outs i).signal.timestamp = some 5) :=
  ⟨fun _ _ _ _ => ⟨rfl, rfl⟩, rfl, rfl, rfl, fun _ => rfl⟩

/-- C9: each `ScalableInput` setter makes the corresponding getter return the
written value and leaves the other four fields unchanged; all five fields stay
writable after construction. -/
theorem scalable_input_accessors :
    ∀ (T : Type) (s : ScalableInput T) (v : T) (u : SIUnit),
      ((s.setScale v).getScale = v ∧ (s.setScale v).getOffset = s.getOffset ∧
       (s.setScale v).getUnit = s.getUnit ∧ (s.setScale v).getMinIn = s.getMinIn ∧
       (s.setScale v).getMaxIn = s.getMaxIn)
    ∧ ((s.setOffset v).getOffset = v ∧ (s.setOffset v).getScale = s.getScale ∧
       (s.setOffset v).getUnit = s.getUnit ∧ (s.setOffset v).getMinIn = s.getMinIn ∧
       (s.setOffset v).getMaxIn = s.getMaxIn)
    ∧ ((s.setUnit u).getUnit = u ∧ (s.setUnit u).getScale = s.getScale ∧
       (s.setUnit u).getOffset = s.getOffset ∧ (s.setUnit u).getMinIn = s.getMinIn ∧
       (s.setUnit u).getMaxIn = s.getMaxIn)
    ∧ ((s.setMinIn v).getMinIn = v ∧ (s.setMinIn v).getScale = s.getScale ∧
       (s.setMinIn v).getOffset = s.getOffset ∧ (s.setMinIn v).getUnit = s.getUnit ∧
       (s.setMinIn v).getMaxIn = s.getMaxIn)
    ∧ ((s.setMaxIn v).getMaxIn = v ∧ (s.setMaxIn v).getScale = s.getScale ∧
       (s.setMaxIn v).getOffset = s.getOffset ∧ (s.setMaxIn v).getUnit = s.getUnit ∧
       (s.setMaxIn v).getMinIn = s.getMinIn) :=
  fun _ _ _ _ =>
    ⟨⟨rfl, rfl, rfl, rfl, rfl⟩, ⟨rfl, rfl, rfl, rfl, rfl⟩, ⟨rfl, rfl, rfl, rfl, rfl⟩,
     ⟨rfl, rfl, rfl, rfl, rfl⟩, ⟨rfl, rfl, rfl, rfl, rfl⟩⟩

end EEROS
